import Mathlib

/-!
Verification of the DeepForge interactive-compute agent
(`src/routers/InteractiveCompute/job-files/start.js`).

The JavaScript source is shallowly embedded below:

* `InteractiveSession.parseCommand` is the shell-style tokenizer, modelled
  as a left fold over the characters of the command string, exactly
  mirroring the `for` loop of the source (state: the chunk list, initially
  `[""]`, and the current open quote character, initially absent).
* File-system state, the `mkdirp` helper, `writeFile`, `unlink` and the
  `ensureValidPath` containment check are modelled over paths represented
  as lists of segments (Node's `path.resolve` normalisation).
* `InteractiveSession.onMessage` is the per-session dispatcher.  Its
  asynchronous structure is made explicit: completions sent while the
  handler runs are in `completes`, completions registered to fire later on
  process exit are in `laterCompletes`, errors that escape the
  `runTask` try/catch boundary as unhandled promise rejections are in
  `uncaught`, and errors logged by `runTask`'s catch are in `logged`.
* `clientStep` is `InteractiveClient.onMessage`: lazy session creation,
  dispatch, and eviction of sessions whose `activeMsgCount` is zero.
-/

namespace DeepForge

/-! ## Command tokenizer (`InteractiveSession.parseCommand`) -/

/-- Loop state of the tokenizer: the chunk list (`chunks`, initially
`[""]`) and the currently open quote character (`quoteChar`, initially
`null`). -/
structure ParseState where
  chunks : List String
  quoteChar : Option Char
deriving DecidableEq, Repr

/-- `chunks[chunks.length - 1] = lastChunk + letter`: append a character to
the last chunk of the list. -/
def appendLast : List String → Char → List String
| [], c => [String.mk [c]]
| [x], c => [x.push c]
| x :: y :: r, c => x :: appendLast (y :: r) c

/-- One iteration of the tokenizer's `for` loop (source lines 147–164). -/
def parseCommandStep (st : ParseState) (letter : Char) : ParseState :=
  let isQuoteChar := letter = '"' ∨ letter = '\''
  let isInQuotes := st.quoteChar.isSome
  if ¬isInQuotes ∧ isQuoteChar then
    { st with quoteChar := some letter }
  else if st.quoteChar = some letter then
    { st with quoteChar := none }
  else if letter = ' ' ∧ ¬isInQuotes then
    { st with chunks := st.chunks ++ [""] }
  else
    { st with chunks := appendLast st.chunks letter }

/-- The tokenizer loop run over a whole command string, starting from
`chunks = [''], quoteChar = null`. -/
def parseFinalState (cmd : String) : ParseState :=
  cmd.data.foldl parseCommandStep ⟨[""], none⟩

/-- `InteractiveSession.parseCommand` (source lines 144–166). -/
def InteractiveSession.parseCommand (cmd : String) : List String :=
  (parseFinalState cmd).chunks

/-! ## Paths

Absolute, normalised paths (the output of Node's `path.resolve`) are
modelled as lists of segments.  A requested file path (possibly relative,
possibly containing `.` / `..` segments) is also a list of segments and is
resolved against the current working directory by `resolvePath`. -/

/-- A path segment (one component between separators). -/
abbrev Seg := String

/-- `path.join(base, seg)` for one extra segment, with Node's
normalisation of `.` and `..`. -/
def joinSeg (base : List Seg) (seg : Seg) : List Seg :=
  if seg = "." then base
  else if seg = ".." then base.dropLast
  else base ++ [seg]

/-- `path.resolve(cwd, p)` for a relative path `p` given as segments. -/
def resolvePath (cwd : List Seg) (p : List Seg) : List Seg :=
  p.foldl joinSeg cwd

/-- Length of the longest common leading run of segments of two paths. -/
def commonLen : List Seg → List Seg → Nat
| a :: as, b :: bs => if a = b then commonLen as bs + 1 else 0
| [], _ => 0
| _ :: _, [] => 0

/-- `path.relative(root, tgt)` on absolute normalised paths, as segments:
one `..` per segment of `root` past the common part, then the remainder of
`tgt`. -/
def relativeSegs (root tgt : List Seg) : List Seg :=
  List.replicate (root.length - commonLen root tgt) ".." ++ tgt.drop (commonLen root tgt)

/-- Join segments with the `/` separator, at character level (the string
Node's `path.relative` returns). -/
def joinChars : List (List Char) → List Char
| [] => []
| [a] => a
| a :: b :: r => a ++ '/' :: joinChars (b :: r)

/-- The character list of `path.relative(root, tgt)`. -/
def relChars (root tgt : List Seg) : List Char :=
  joinChars ((relativeSegs root tgt).map String.data)

/-- `InteractiveSession.ensureValidPath` (source lines 115–124):
`path.relative(path.resolve(__dirname), path.resolve(filepath))` must not
start with the two characters `..`, else `throw new Error('Cannot edit
files outside workspace: ...')`.  `dirname` is the script's directory and
`cwd` the process working directory (both absolute, as segments). -/
def InteractiveSession.ensureValidPath (dirname cwd : List Seg) (filepath : List Seg) :
    Except String Unit :=
  let isOutsideWorkspace := List.isPrefixOf ['.', '.'] (relChars dirname (resolvePath cwd filepath))
  if isOutsideWorkspace then
    Except.error "Cannot edit files outside workspace"
  else
    Except.ok ()

/-- `true` when `ensureValidPath` raises. -/
def rejectsPath (dirname cwd : List Seg) (filepath : List Seg) : Bool :=
  match InteractiveSession.ensureValidPath dirname cwd filepath with
  | Except.error _ => true
  | Except.ok _ => false

/-! ## File system model -/

/-- A node of the file system: a regular file with contents, or a
directory. -/
inductive FsNode
| file (content : String)
| dir
deriving DecidableEq, Repr

/-- File-system state: an association of absolute paths to nodes.  The
root `[]` always exists as a directory. -/
structure FS where
  nodes : List (List Seg × FsNode)
deriving DecidableEq, Repr

/-- Look up the node recorded at a path. -/
def findNode : List (List Seg × FsNode) → List Seg → Option FsNode
| [], _ => none
| (q, n) :: r, p => if q = p then some n else findNode r p

/-- The node at a path (the root is always a directory). -/
def FS.nodeAt (fs : FS) (p : List Seg) : Option FsNode :=
  if p = [] then some FsNode.dir else findNode fs.nodes p

/-- Record a node at a path, replacing any previous entry. -/
def setNode : List (List Seg × FsNode) → List Seg → FsNode → List (List Seg × FsNode)
| [], p, n => [(p, n)]
| (q, m) :: r, p, n => if q = p then (p, n) :: r else (q, m) :: setNode r p n

/-- Remove the entry at a path. -/
def removeNode : List (List Seg × FsNode) → List Seg → List (List Seg × FsNode)
| [], _ => []
| (q, m) :: r, p => if q = p then removeNode r p else (q, m) :: removeNode r p

/-- `fsp.mkdir(dir)`: `EEXIST` if anything is already at the path,
`ENOENT` if the parent is not an existing directory, else create. -/
def FS.mkdir (fs : FS) (p : List Seg) : Except String FS :=
  match fs.nodeAt p with
  | some _ => Except.error "EEXIST"
  | none =>
    match fs.nodeAt p.dropLast with
    | some FsNode.dir => Except.ok ⟨setNode fs.nodes p FsNode.dir⟩
    | _ => Except.error "ENOENT"

/-- `fsp.writeFile(path, content)`: fails with `EISDIR` if a directory is
at the path, `ENOENT` if the parent is not an existing directory;
otherwise creates or replaces the file. -/
def FS.write (fs : FS) (p : List Seg) (content : String) : Except String FS :=
  match fs.nodeAt p with
  | some FsNode.dir => Except.error "EISDIR"
  | _ =>
    match fs.nodeAt p.dropLast with
    | some FsNode.dir => Except.ok ⟨setNode fs.nodes p (FsNode.file content)⟩
    | _ => Except.error "ENOENT"

/-- `fsp.unlink(path)`: `ENOENT` if nothing is at the path, `EISDIR` for a
directory, else delete the file. -/
def FS.unlink (fs : FS) (p : List Seg) : Except String FS :=
  match fs.nodeAt p with
  | none => Except.error "ENOENT"
  | some FsNode.dir => Except.error "EISDIR"
  | some (FsNode.file _) => Except.ok ⟨removeNode fs.nodes p⟩

/-- The `mkdirp(...dirs)` helper (source lines 183–196): starting from the
working directory, join each next segment and `mkdir` it, swallowing
`EEXIST` and aborting on any other error.  Successfully created
directories persist even when a later step fails. -/
def mkdirpGo (fs : FS) (base : List Seg) : List Seg → FS × Option String
| [] => (fs, none)
| d :: rest =>
  let dir := joinSeg base d
  match fs.mkdir dir with
  | Except.ok fs' => mkdirpGo fs' dir rest
  | Except.error e =>
    if e = "EEXIST" then mkdirpGo fs dir rest else (fs, some e)

/-- `path.dirname(filepath).split(path.sep)` for a path given as
segments: all but the last segment, or `["."]` for a bare file name. -/
def dirnameSegs (p : List Seg) : List Seg :=
  if p.length ≤ 1 then ["."] else p.dropLast

/-- `InteractiveSession.writeFile` (source lines 126–130): `mkdirp` the
directory part, then write the file.  Returns the resulting file system
(partial effects persist) and the error, if one was raised. -/
def InteractiveSession.writeFile (cwd : List Seg) (filepath : List Seg) (content : String)
    (fs : FS) : FS × Option String :=
  match mkdirpGo fs cwd (dirnameSegs filepath) with
  | (fs1, some e) => (fs1, some e)
  | (fs1, none) =>
    match fs1.write (resolvePath cwd filepath) content with
    | Except.ok fs2 => (fs2, none)
    | Except.error e => (fs1, some e)

/-! ## Task runner and session dispatch -/

/-- One `COMPLETE` report: the exit code and the optional result payload
(`undefined` results are modelled as `none`). -/
structure Report where
  code : Int
  result : Option String
deriving DecidableEq, Repr

/-- What one `runTask` call produces: the single completion report and
the errors its `catch` logged locally. -/
structure TaskOut where
  report : Report
  logged : List String
deriving DecidableEq, Repr

/-- `InteractiveSession.runTask` (source lines 132–142): await the
operation; on success complete with code 0 and its return value, on
failure log the error and complete with code 1 and no result.  The
operation's outcome is its `Except` value (`ok` carries the returned
result, `error` the signalled error). -/
def InteractiveSession.runTask (fn : Except String (Option String)) : TaskOut :=
  match fn with
  | Except.ok result => ⟨⟨0, result⟩, []⟩
  | Except.error err => ⟨⟨1, none⟩, [err]⟩

/-- Incoming messages.  Outcomes of operations performed by external
collaborators (the storage backend of the artifact operations, and the
eventual exit code of a spawned process) are carried with the message as
oracles, since they are resolved outside this module. -/
inductive Msg
| RUN (cmd : String) (exitCode : Int)
| KILL
| ADD_ARTIFACT (name : String) (fetchOutcome : Except String Unit)
| SAVE_ARTIFACT (saveOutcome : Except String String)
| ADD_FILE (filepath : List Seg) (content : String)
| SET_ENV (name value : String)
| REMOVE_FILE (filepath : List Seg)
| UNKNOWN (kind : String)

/-- Session state: the in-flight message counter and the current
subprocess reference (a pid), as in the `InteractiveSession` constructor
(`activeMsgCount = 0`, no subprocess). -/
structure SessionSt where
  activeMsgCount : Int
  subprocess : Option Nat
deriving DecidableEq, Repr

/-- State outside the session: the file system, the process environment
(`process.env`) and the next fresh pid. -/
structure World where
  fs : FS
  env : List (String × String)
  nextPid : Nat
deriving DecidableEq, Repr

/-- `process.env[name] = value`. -/
def envSet : List (String × String) → String → String → List (String × String)
| [], n, v => [(n, v)]
| (k, w) :: r, n, v => if k = n then (n, v) :: r else (k, w) :: envSet r n v

/-- Everything one `InteractiveSession.onMessage` call does.
`completes` are `COMPLETE` reports sent before the handler's promise
resolves; `laterCompletes` are reports registered to fire on a later
process-exit event (each such event also decrements the counter when it
fires); `spawned` are `spawn(cmd, opts)` calls; `kills` are
`subprocess.kill()` calls; `logged` are errors logged by `runTask`'s
catch; `uncaught` are errors that escape the `runTask` boundary (an
unhandled promise rejection or a rejection of `onMessage` itself). -/
structure StepOut where
  st : SessionSt
  world : World
  completes : List Report
  laterCompletes : List Report
  spawned : List (String × List String)
  kills : List Nat
  logged : List String
  uncaught : List String
deriving DecidableEq, Repr

/-- The in-flight counter once every registered process-exit completion
has also fired. -/
def StepOut.eventualCount (out : StepOut) : Int :=
  out.st.activeMsgCount - out.laterCompletes.length

/-- All completion reports the message will ever produce. -/
def StepOut.allCompletes (out : StepOut) : List Report :=
  out.completes ++ out.laterCompletes

/-- `onTaskComplete` decrements the counter (source lines 49–53). -/
def decCount (st : SessionSt) : SessionSt :=
  { st with activeMsgCount := st.activeMsgCount - 1 }

/-- `InteractiveSession.onMessage` (source lines 55–113).  The counter is
incremented on entry, then the handler for the message kind runs:

* `RUN`: tokenize the command, spawn first-token/rest, register the
  exit-event completion (which will carry the process's exit code and
  decrement the counter when it fires).
* `KILL`: kill the current subprocess if there is one.  The source calls
  no completion here, so no `COMPLETE` is emitted and the counter is not
  decremented.
* `ADD_ARTIFACT`: `mkdirp('artifacts', name)` runs before `runTask`, so a
  non-`EEXIST` failure there rejects `onMessage` itself (no completion);
  otherwise the fetch body (storage-backend effects abstracted into its
  carried outcome) runs under `runTask`.
* `SAVE_ARTIFACT`: the save body runs under `runTask`; its returned
  data-info is the result payload.
* `ADD_FILE`: under `runTask`, `ensureValidPath` runs synchronously
  (caught), then `this.writeFile(...)` is called WITHOUT `await`: the
  task completes with the validation outcome alone, and a failure of the
  detached write becomes an unhandled rejection (`uncaught`), not a
  code-1 completion.
* `SET_ENV`: under `runTask`, set the variable; never fails.
* `REMOVE_FILE`: under `runTask`, `ensureValidPath` then awaited
  `fsp.unlink`.
* anything else: complete immediately with code 2. -/
def InteractiveSession.onMessage (dirname cwd : List Seg) (st : SessionSt) (w : World) :
    Msg → StepOut
| Msg.RUN cmd exitCode =>
  let chunks := InteractiveSession.parseCommand cmd
  let pid := w.nextPid
  { st := { activeMsgCount := st.activeMsgCount + 1, subprocess := some pid }
    world := { w with nextPid := w.nextPid + 1 }
    completes := []
    laterCompletes := [⟨exitCode, none⟩]
    spawned := [(chunks.headD "", chunks.tail)]
    kills := [], logged := [], uncaught := [] }
| Msg.KILL =>
  { st := { st with activeMsgCount := st.activeMsgCount + 1 }
    world := w
    completes := [], laterCompletes := [], spawned := []
    kills := st.subprocess.toList
    logged := [], uncaught := [] }
| Msg.ADD_ARTIFACT name fetchOutcome =>
  match mkdirpGo w.fs cwd ["artifacts", name] with
  | (fs1, some e) =>
    { st := { st with activeMsgCount := st.activeMsgCount + 1 }
      world := { w with fs := fs1 }
      completes := [], laterCompletes := [], spawned := [], kills := []
      logged := [], uncaught := [e] }
  | (fs1, none) =>
    let t := InteractiveSession.runTask (fetchOutcome.map fun _ => none)
    { st := decCount { st with activeMsgCount := st.activeMsgCount + 1 }
      world := { w with fs := fs1 }
      completes := [t.report], laterCompletes := [], spawned := [], kills := []
      logged := t.logged, uncaught := [] }
| Msg.SAVE_ARTIFACT saveOutcome =>
  let t := InteractiveSession.runTask (saveOutcome.map some)
  { st := decCount { st with activeMsgCount := st.activeMsgCount + 1 }
    world := w
    completes := [t.report], laterCompletes := [], spawned := [], kills := []
    logged := t.logged, uncaught := [] }
| Msg.ADD_FILE filepath content =>
  let t := InteractiveSession.runTask
    ((InteractiveSession.ensureValidPath dirname cwd filepath).map fun _ => none)
  match InteractiveSession.ensureValidPath dirname cwd filepath with
  | Except.error _ =>
    { st := decCount { st with activeMsgCount := st.activeMsgCount + 1 }
      world := w
      completes := [t.report], laterCompletes := [], spawned := [], kills := []
      logged := t.logged, uncaught := [] }
  | Except.ok _ =>
    let (fs1, werr) := InteractiveSession.writeFile cwd filepath content w.fs
    { st := decCount { st with activeMsgCount := st.activeMsgCount + 1 }
      world := { w with fs := fs1 }
      completes := [t.report], laterCompletes := [], spawned := [], kills := []
      logged := t.logged, uncaught := werr.toList }
| Msg.SET_ENV name value =>
  let t := InteractiveSession.runTask (Except.ok none)
  { st := decCount { st with activeMsgCount := st.activeMsgCount + 1 }
    world := { w with env := envSet w.env name value }
    completes := [t.report], laterCompletes := [], spawned := [], kills := []
    logged := t.logged, uncaught := [] }
| Msg.REMOVE_FILE filepath =>
  let outcome : Except String FS := do
    let _ ← InteractiveSession.ensureValidPath dirname cwd filepath
    w.fs.unlink (resolvePath cwd filepath)
  let t := InteractiveSession.runTask (outcome.map fun _ => none)
  { st := decCount { st with activeMsgCount := st.activeMsgCount + 1 }
    world := { w with fs := match outcome with | Except.ok fs' => fs' | Except.error _ => w.fs }
    completes := [t.report], laterCompletes := [], spawned := [], kills := []
    logged := t.logged, uncaught := [] }
| Msg.UNKNOWN _ =>
  { st := decCount { st with activeMsgCount := st.activeMsgCount + 1 }
    world := w
    completes := [⟨2, none⟩], laterCompletes := [], spawned := [], kills := []
    logged := [], uncaught := [] }

/-! ## Client dispatch (`InteractiveClient.onMessage`) -/

/-- Client state: the `sessions` mapping from session id to session. -/
structure ClientSt where
  sessions : List (String × SessionSt)
deriving DecidableEq, Repr

/-- Look up a session by id. -/
def getSession : List (String × SessionSt) → String → Option SessionSt
| [], _ => none
| (k, v) :: r, sid => if k = sid then some v else getSession r sid

/-- Store a session under an id, replacing any previous entry. -/
def setSession : List (String × SessionSt) → String → SessionSt → List (String × SessionSt)
| [], sid, s => [(sid, s)]
| (k, v) :: r, sid, s => if k = sid then (sid, s) :: r else (k, v) :: setSession r sid s

/-- `delete this.sessions[sessionID]`. -/
def delSession : List (String × SessionSt) → String → List (String × SessionSt)
| [], _ => []
| (k, v) :: r, sid => if k = sid then delSession r sid else (k, v) :: delSession r sid

/-- The session the client dispatches to: the stored one, or a freshly
constructed `new InteractiveSession(...)` (counter 0, no subprocess). -/
def sessionFor (cs : ClientSt) (sid : String) : SessionSt :=
  (getSession cs.sessions sid).getD ⟨0, none⟩

/-- `InteractiveClient.onMessage` (source lines 25–35): create the session
on demand, dispatch the message, then evict the session when its
`activeMsgCount` is 0. -/
def clientStep (dirname cwd : List Seg) (cs : ClientSt) (w : World) (sid : String)
    (msg : Msg) : ClientSt × StepOut :=
  let out := InteractiveSession.onMessage dirname cwd (sessionFor cs sid) w msg
  let sessions' :=
    if out.st.activeMsgCount = 0 then delSession cs.sessions sid
    else setSession cs.sessions sid out.st
  (⟨sessions'⟩, out)

/-! ## Concrete fixtures -/

/-- A fresh session, as built by the `InteractiveSession` constructor:
`activeMsgCount = 0`, no subprocess. -/
def s0 : SessionSt := ⟨0, none⟩

/-- A world whose file system holds just the workspace directory `ws`. -/
def w0 : World := ⟨⟨[(["ws"], FsNode.dir)]⟩, [], 0⟩

/-- A file system in which a directory already sits at `ws/sub/f.txt`, so
that writing that file must fail with `EISDIR`. -/
def fsDirAtTarget : FS :=
  ⟨[(["ws"], FsNode.dir), (["ws", "sub"], FsNode.dir), (["ws", "sub", "f.txt"], FsNode.dir)]⟩

/-! ## Helper lemmas: the tokenizer -/

theorem appendLast_ne_nil (l : List String) (c : Char) : appendLast l c ≠ [] := by
  cases l with
  | nil => simp [appendLast]
  | cons x r => cases r <;> simp [appendLast]

theorem parseCommandStep_chunks_ne_nil (st : ParseState) (c : Char)
    (h : st.chunks ≠ []) : (parseCommandStep st c).chunks ≠ [] := by
  unfold parseCommandStep
  dsimp only
  split
  · simpa using h
  · split
    · simpa using h
    · split
      · simp
      · simpa using appendLast_ne_nil st.chunks c

theorem foldl_chunks_ne_nil (l : List Char) (st : ParseState) (h : st.chunks ≠ []) :
    (l.foldl parseCommandStep st).chunks ≠ [] := by
  induction l generalizing st with
  | nil => simpa using h
  | cons c r ih => exact ih _ (parseCommandStep_chunks_ne_nil st c h)

/-- The tokenizer never returns an empty token list. -/
theorem parseCommand_ne_nil (cmd : String) : InteractiveSession.parseCommand cmd ≠ [] := by
  unfold InteractiveSession.parseCommand parseFinalState
  exact foldl_chunks_ne_nil cmd.data ⟨[""], none⟩ (by simp)

/-! ## Claims C1, C2: the KILL path never completes -/

/-- Claim C1: "for every message accepted by a Session (every message
kind, including KILL), the in-flight counter is incremented exactly once
at dispatch entry and decremented exactly once by the corresponding
completion, and exactly one COMPLETE report is eventually emitted."
The code violates this for KILL: dispatching KILL to a fresh session
emits no COMPLETE at all (neither immediately nor later) and leaves the
counter at 1 forever, so the session is never evicted. -/
theorem claim_C1_kill_breaks_completion_invariant :
    (InteractiveSession.onMessage ["ws"] ["ws"] s0 w0 Msg.KILL).allCompletes = [] ∧
    (InteractiveSession.onMessage ["ws"] ["ws"] s0 w0 Msg.KILL).st.activeMsgCount = 1 ∧
    (InteractiveSession.onMessage ["ws"] ["ws"] s0 w0 Msg.KILL).eventualCount = 1 := by
  refine ⟨rfl, rfl, rfl⟩

/-- Claim C2: "for every KILL message: if a current process reference
exists its termination is requested; if none exists the message is a
silently accepted no-op that does not raise; in both cases the KILL task
itself completes immediately with its own COMPLETE report."  The first
two parts hold (kill is requested exactly when a subprocess reference
exists, and nothing raises), but the last is false: in both cases KILL
produces no COMPLETE report whatsoever. -/
theorem claim_C2_kill_never_completes :
    ((InteractiveSession.onMessage ["ws"] ["ws"] ⟨0, some 7⟩ w0 Msg.KILL).kills = [7] ∧
     (InteractiveSession.onMessage ["ws"] ["ws"] ⟨0, some 7⟩ w0 Msg.KILL).allCompletes = []) ∧
    ((InteractiveSession.onMessage ["ws"] ["ws"] s0 w0 Msg.KILL).kills = [] ∧
     (InteractiveSession.onMessage ["ws"] ["ws"] s0 w0 Msg.KILL).uncaught = [] ∧
     (InteractiveSession.onMessage ["ws"] ["ws"] s0 w0 Msg.KILL).allCompletes = []) := by
  refine ⟨⟨rfl, rfl⟩, rfl, rfl, rfl⟩

/-! ## Claim C3: the task-runner contract -/

/-- Claim C3: `runTask(operation)` produces exactly one completion report
per call: on success code 0 with the operation's return value (absent if
none), on failure code 1 with no result, the error logged locally and
never propagated past the Task Runner boundary (shown here on the
SAVE_ARTIFACT dispatch path: one completion, nothing uncaught). -/
theorem claim_C3_runTask_contract :
    (∀ r : Option String, InteractiveSession.runTask (Except.ok r) = ⟨⟨0, r⟩, []⟩) ∧
    (∀ e : String, InteractiveSession.runTask (Except.error e) = ⟨⟨1, none⟩, [e]⟩) ∧
    (∀ (dirname cwd : List Seg) (st : SessionSt) (w : World) (o : Except String String),
      (InteractiveSession.onMessage dirname cwd st w (Msg.SAVE_ARTIFACT o)).completes =
        [(InteractiveSession.runTask (o.map some)).report] ∧
      (InteractiveSession.onMessage dirname cwd st w (Msg.SAVE_ARTIFACT o)).laterCompletes = [] ∧
      (InteractiveSession.onMessage dirname cwd st w (Msg.SAVE_ARTIFACT o)).uncaught = []) :=
  ⟨fun _ => rfl, fun _ => rfl, fun _ _ _ _ _ => ⟨rfl, rfl, rfl⟩⟩

/-! ## Claim C7: RUN spawns first-token/rest and forwards the exit code -/

/-- Claim C7: for every RUN message the command string is split by the
tokenizer, the process is spawned with the first token as executable and
the remaining tokens as arguments, and on process exit the task completes
with the process's exit code forwarded verbatim (no result payload, any
code — non-zero included — is forwarded as-is), returning the counter to
its previous value. -/
theorem claim_C7_run_spawn_and_exit (dirname cwd : List Seg) (st : SessionSt) (w : World)
    (cmd : String) (code : Int) :
    ∃ t ts, InteractiveSession.parseCommand cmd = t :: ts ∧
      (InteractiveSession.onMessage dirname cwd st w (Msg.RUN cmd code)).spawned = [(t, ts)] ∧
      (InteractiveSession.onMessage dirname cwd st w (Msg.RUN cmd code)).completes = [] ∧
      (InteractiveSession.onMessage dirname cwd st w (Msg.RUN cmd code)).allCompletes =
        [⟨code, none⟩] ∧
      (InteractiveSession.onMessage dirname cwd st w (Msg.RUN cmd code)).eventualCount =
        st.activeMsgCount := by
  rcases h : InteractiveSession.parseCommand cmd with _ | ⟨t, ts⟩
  · exact absurd h (parseCommand_ne_nil cmd)
  · refine ⟨t, ts, rfl, ?_, rfl, ?_, ?_⟩
    · simp [InteractiveSession.onMessage, h]
    · simp [InteractiveSession.onMessage, StepOut.allCompletes]
    · simp [InteractiveSession.onMessage, StepOut.eventualCount]

/-! ## Claim C8: ADD_FILE write failures escape the task runner -/

/-- Claim C8: "any I/O failure during directory creation or the file
write is caught and reported as a completion with exit code 1 and no
result payload."  The code violates this: the handler calls
`this.writeFile(...)` without `await`, so the task completes with code 0
while the write's failure becomes an unhandled rejection.  Here the
target path is an existing directory, the write fails with `EISDIR`, yet
the completion report is `(0, none)` and the error is never caught. -/
theorem claim_C8_write_failure_escapes_task_runner :
    (InteractiveSession.onMessage ["ws"] ["ws"] s0 ⟨fsDirAtTarget, [], 0⟩
      (Msg.ADD_FILE ["sub", "f.txt"] "hi")).completes = [⟨0, none⟩] ∧
    (InteractiveSession.onMessage ["ws"] ["ws"] s0 ⟨fsDirAtTarget, [], 0⟩
      (Msg.ADD_FILE ["sub", "f.txt"] "hi")).uncaught = ["EISDIR"] ∧
    (InteractiveSession.onMessage ["ws"] ["ws"] s0 ⟨fsDirAtTarget, [], 0⟩
      (Msg.ADD_FILE ["sub", "f.txt"] "hi")).logged = [] := by
  refine ⟨by decide, by decide, by decide⟩

/-! ## Claim C9: unknown message kinds complete with code 2 -/

/-- Claim C9: any message whose kind matches no known handler completes
immediately with exit code 2 and no result, without raising, with the
counter back at its previous value — and this code-2 signal is distinct
from the code-1 completion the task runner produces on operation
errors. -/
theorem claim_C9_unknown_completes_code_2 (dirname cwd : List Seg) (st : SessionSt)
    (w : World) (kind : String) :
    (InteractiveSession.onMessage dirname cwd st w (Msg.UNKNOWN kind)).completes =
      [⟨2, none⟩] ∧
    (InteractiveSession.onMessage dirname cwd st w (Msg.UNKNOWN kind)).laterCompletes = [] ∧
    (InteractiveSession.onMessage dirname cwd st w (Msg.UNKNOWN kind)).uncaught = [] ∧
    (InteractiveSession.onMessage dirname cwd st w (Msg.UNKNOWN kind)).st.activeMsgCount =
      st.activeMsgCount ∧
    (∀ e : String, (InteractiveSession.runTask (Except.error e)).report.code ≠ 2) := by
  refine ⟨rfl, rfl, rfl, ?_, fun e => by show (1 : Int) ≠ 2; decide⟩
  simp [InteractiveSession.onMessage, decCount]

/-! ## Claim C5: session eviction in the client mapping -/

theorem getSession_delSession (m : List (String × SessionSt)) (sid : String) :
    getSession (delSession m sid) sid = none := by
  induction m with
  | nil => rfl
  | cons kv r ih =>
    obtain ⟨k, v⟩ := kv
    by_cases h : k = sid
    · simpa [delSession, h] using ih
    · simpa [delSession, getSession, h] using ih

theorem getSession_setSession (m : List (String × SessionSt)) (sid : String) (s : SessionSt) :
    getSession (setSession m sid s) sid = some s := by
  induction m with
  | nil => simp [setSession, getSession]
  | cons kv r ih =>
    obtain ⟨k, v⟩ := kv
    by_cases h : k = sid
    · simp [setSession, getSession, h]
    · simpa [setSession, getSession, h] using ih

/-- Claim C5: immediately after the client finishes processing a message,
the target session is present in the mapping iff its in-flight counter is
non-zero; a session absent from the mapping (never seen, or evicted
because its counter returned to zero during processing) is dispatched to
as a freshly constructed session (counter 0, no subprocess) when a later
message arrives for the same id. -/
theorem claim_C5_session_eviction (dirname cwd : List Seg) (cs : ClientSt) (w : World)
    (sid : String) (msg : Msg) :
    ((getSession (clientStep dirname cwd cs w sid msg).1.sessions sid).isSome ↔
      (clientStep dirname cwd cs w sid msg).2.st.activeMsgCount ≠ 0) ∧
    (getSession cs.sessions sid = none → sessionFor cs sid = ⟨0, none⟩) ∧
    ((clientStep dirname cwd cs w sid msg).2.st.activeMsgCount = 0 →
      sessionFor (clientStep dirname cwd cs w sid msg).1 sid = ⟨0, none⟩) := by
  refine ⟨?_, ?_, ?_⟩
  · by_cases h :
      (InteractiveSession.onMessage dirname cwd (sessionFor cs sid) w msg).st.activeMsgCount = 0
    · simp [clientStep, h, getSession_delSession]
    · simp [clientStep, h, getSession_setSession]
  · intro h
    simp [sessionFor, h]
  · intro h
    have h' :
        (InteractiveSession.onMessage dirname cwd
          ((getSession cs.sessions sid).getD ⟨0, none⟩) w msg).st.activeMsgCount = 0 := h
    simp [clientStep, sessionFor, h', getSession_delSession]

/-- Witness for claim C5 at a concrete input: a fresh session processing
an unrecognized message returns its counter to zero, so it is evicted and
a later lookup dispatches to a fresh session. -/
theorem claim_C5_session_eviction_witness :
    ((getSession (clientStep ["ws"] ["ws"] ⟨[]⟩ w0 "s1" (Msg.UNKNOWN "BOGUS")).1.sessions
        "s1").isSome ↔
      (clientStep ["ws"] ["ws"] ⟨[]⟩ w0 "s1" (Msg.UNKNOWN "BOGUS")).2.st.activeMsgCount ≠ 0) ∧
    sessionFor ⟨[]⟩ "s1" = ⟨0, none⟩ ∧
    sessionFor (clientStep ["ws"] ["ws"] ⟨[]⟩ w0 "s1" (Msg.UNKNOWN "BOGUS")).1 "s1" =
      ⟨0, none⟩ :=
  ⟨(claim_C5_session_eviction ["ws"] ["ws"] ⟨[]⟩ w0 "s1" (Msg.UNKNOWN "BOGUS")).1,
   (claim_C5_session_eviction ["ws"] ["ws"] ⟨[]⟩ w0 "s1" (Msg.UNKNOWN "BOGUS")).2.1 rfl,
   (claim_C5_session_eviction ["ws"] ["ws"] ⟨[]⟩ w0 "s1" (Msg.UNKNOWN "BOGUS")).2.2 (by decide)⟩

/-! ## Claim C4: the tokenizer contract -/

/-- Claim C4: `parseCommand` is a pure total function that splits on
unquoted spaces; a quote character toggles quoting only when it matches
the opening quote (any character differing from the open quote — the
other quote character included — is kept literally), toggling quote
characters are consumed (the chunk list is unchanged when a quote
opens), and the empty input yields the single empty token; in particular
the three example tokenizations of the specification hold. -/
theorem claim_C4_tokenizer :
    InteractiveSession.parseCommand "run -x \"a b\" c" = ["run", "-x", "a b", "c"] ∧
    InteractiveSession.parseCommand "echo 'it\"s'" = ["echo", "it\"s"] ∧
    InteractiveSession.parseCommand "" = [""] ∧
    (∀ (st : ParseState) (c : Char), st.quoteChar = none → (c = '"' ∨ c = '\'') →
      parseCommandStep st c = { st with quoteChar := some c }) ∧
    (∀ (st : ParseState) (q c : Char), st.quoteChar = some q → c ≠ q →
      parseCommandStep st c = { st with chunks := appendLast st.chunks c }) := by
  refine ⟨by decide, by decide, by decide, ?_, ?_⟩
  · intro st c h hc
    unfold parseCommandStep
    dsimp only
    simp [h, hc]
  · intro st q c h hne
    unfold parseCommandStep
    dsimp only
    have hq : st.quoteChar ≠ some c := by
      rw [h]
      simpa using fun he => hne he.symm
    simp [h, hq]
    exact fun he => hne he.symm

/-- Witness for claim C4 at a concrete input: inside a single-quoted
span, a double quote is kept as a literal character. -/
theorem claim_C4_tokenizer_witness :
    parseCommandStep ⟨["it"], some '\''⟩ '"' =
      { ParseState.mk ["it"] (some '\'') with chunks := appendLast ["it"] '"' } :=
  claim_C4_tokenizer.2.2.2.2 ⟨["it"], some '\''⟩ '\'' '"' rfl (by decide)

/-! ## Claim C10: every unquoted space is a token boundary -/

/-- Claim C10: each unquoted space creates a token boundary, so a
trailing unquoted space appends a trailing empty token (for any input
whose quoting state ends closed), consecutive unquoted spaces yield
intervening empty tokens (`a  b` tokenizes to `a`, ``, `b` and `a ` to
`a`, ``), and empty tokens are preserved as arguments handed to the
spawned RUN process. -/
theorem claim_C10_unquoted_spaces :
    (∀ s : String, (parseFinalState s).quoteChar = none →
      InteractiveSession.parseCommand (s ++ " ") = InteractiveSession.parseCommand s ++ [""]) ∧
    InteractiveSession.parseCommand "a  b" = ["a", "", "b"] ∧
    InteractiveSession.parseCommand "a " = ["a", ""] ∧
    (∀ (dirname cwd : List Seg) (st : SessionSt) (w : World) (code : Int),
      (InteractiveSession.onMessage dirname cwd st w (Msg.RUN "a  b" code)).spawned =
        [("a", ["", "b"])]) := by
  refine ⟨?_, by decide, by decide, fun _ _ _ _ _ => rfl⟩
  intro s h
  unfold InteractiveSession.parseCommand parseFinalState
  have hdata : (s ++ " ").data = s.data ++ [' '] := by
    simp [String.data_append]
  rw [hdata, List.foldl_append, List.foldl_cons, List.foldl_nil]
  have h' : (List.foldl parseCommandStep ⟨[""], none⟩ s.data).quoteChar = none := h
  generalize List.foldl parseCommandStep ⟨[""], none⟩ s.data = X at h' ⊢
  obtain ⟨chs, qc⟩ := X
  dsimp at h'
  subst h'
  unfold parseCommandStep
  dsimp only
  rw [if_neg (by decide), if_neg (by decide), if_pos (by decide)]

/-- Witness for claim C10 at a concrete input: `a` ends outside quotes,
so appending a space appends an empty token. -/
theorem claim_C10_unquoted_spaces_witness :
    InteractiveSession.parseCommand ("a" ++ " ") =
      InteractiveSession.parseCommand "a" ++ [""] :=
  claim_C10_unquoted_spaces.1 "a" (by decide)

/-! ## Claim C6: the path containment check -/

theorem commonLen_self_append (root rest : List Seg) :
    commonLen root (root ++ rest) = root.length := by
  induction root with
  | nil => rfl
  | cons a as ih => simp [commonLen, ih]

theorem commonLen_le_left (a b : List Seg) : commonLen a b ≤ a.length := by
  induction a generalizing b with
  | nil => simp [commonLen]
  | cons x xs ih =>
    cases b with
    | nil => simp [commonLen]
    | cons y ys =>
      by_cases h : x = y
      · simpa [commonLen, h] using ih ys
      · simp [commonLen, h]

theorem isPrefix_of_commonLen (root tgt : List Seg)
    (h : commonLen root tgt = root.length) : root <+: tgt := by
  induction root generalizing tgt with
  | nil => exact ⟨tgt, rfl⟩
  | cons a as ih =>
    cases tgt with
    | nil =>
      exfalso
      simp [commonLen] at h
    | cons b bs =>
      by_cases hab : a = b
      · subst hab
        have h' : commonLen as bs = as.length := by
          simpa [commonLen] using h
        obtain ⟨t, ht⟩ := ih bs h'
        exact ⟨t, by simp [ht]⟩
      · exfalso
        simp [commonLen, hab] at h

theorem drop_len_append (l₁ l₂ : List Seg) : (l₁ ++ l₂).drop l₁.length = l₂ := by
  induction l₁ with
  | nil => rfl
  | cons a as ih => simp [ih]

/-- The joined relative path starts with the characters `..` exactly when
its first segment does. -/
theorem dotdot_joinChars (a : List Char) (r : List (List Char)) :
    List.isPrefixOf ['.', '.'] (joinChars (a :: r)) = List.isPrefixOf ['.', '.'] a := by
  cases a with
  | nil => cases r with
    | nil => rfl
    | cons b rr => rfl
  | cons c1 a1 =>
    cases a1 with
    | nil => cases r with
      | nil => rfl
      | cons b rr => rfl
    | cons c2 a2 => cases r with
      | nil => rfl
      | cons b rr => simp [joinChars, List.isPrefixOf]

theorem rejectsPath_eq (dirname cwd p : List Seg) :
    rejectsPath dirname cwd p =
      List.isPrefixOf ['.', '.'] (relChars dirname (resolvePath cwd p)) := by
  unfold rejectsPath InteractiveSession.ensureValidPath
  dsimp only
  cases hb : List.isPrefixOf ['.', '.'] (relChars dirname (resolvePath cwd p)) <;> simp [hb]

/-- The containment check rejects exactly when the resolved target is
outside the root, or is inside it but the first segment under the root
itself starts with the two characters `..`. -/
theorem rejectsPath_iff (dirname cwd p : List Seg) :
    rejectsPath dirname cwd p = true ↔
      (¬ dirname <+: resolvePath cwd p ∨
        ∃ a r, resolvePath cwd p = dirname ++ a :: r ∧
          List.isPrefixOf ['.', '.'] a.data = true) := by
  rw [rejectsPath_eq]
  by_cases hpre : dirname <+: resolvePath cwd p
  · obtain ⟨rest, hrest⟩ := hpre
    rw [← hrest]
    have hrel : relativeSegs dirname (dirname ++ rest) = rest := by
      unfold relativeSegs
      rw [commonLen_self_append, Nat.sub_self, List.replicate_zero, List.nil_append,
        drop_len_append]
    cases rest with
    | nil =>
      rw [relChars, hrel]
      simp only [List.map_nil]
      constructor
      · intro h
        cases h
      · rintro (h | ⟨a, r, ha, _⟩)
        · exact absurd ⟨[], rfl⟩ h
        · exact absurd (List.append_cancel_left ha) (by simp)
    | cons a r =>
      rw [relChars, hrel, List.map_cons, dotdot_joinChars]
      constructor
      · intro h
        exact Or.inr ⟨a, r, rfl, h⟩
      · rintro (h | ⟨a', r', ha, hp⟩)
        · exact absurd ⟨a :: r, rfl⟩ h
        · obtain ⟨h1, h2⟩ : a = a' ∧ r = r' := by
            have := List.append_cancel_left ha
            exact ⟨by injection this, by injection this⟩
          subst h1
          exact hp
  · have hk : commonLen dirname (resolvePath cwd p) < dirname.length :=
      lt_of_le_of_ne (commonLen_le_left _ _) fun he => hpre (isPrefix_of_commonLen _ _ he)
    obtain ⟨m, hm⟩ : ∃ m, dirname.length - commonLen dirname (resolvePath cwd p) = m + 1 :=
      ⟨dirname.length - commonLen dirname (resolvePath cwd p) - 1, by omega⟩
    have hrel : relativeSegs dirname (resolvePath cwd p) =
        ".." :: (List.replicate m ".." ++ (resolvePath cwd p).drop
          (commonLen dirname (resolvePath cwd p))) := by
      unfold relativeSegs
      rw [hm, List.replicate_succ, List.cons_append]
    rw [relChars, hrel, List.map_cons, dotdot_joinChars]
    constructor
    · intro _
      exact Or.inl hpre
    · intro _
      decide

/-- When the containment check rejects, it raises the workspace error. -/
theorem ensureValidPath_of_rejects (dirname cwd p : List Seg)
    (h : rejectsPath dirname cwd p = true) :
    InteractiveSession.ensureValidPath dirname cwd p =
      Except.error "Cannot edit files outside workspace" := by
  cases hc : List.isPrefixOf ['.', '.'] (relChars dirname (resolvePath cwd p)) with
  | true =>
    unfold InteractiveSession.ensureValidPath
    dsimp only
    simp [hc]
  | false =>
    exfalso
    rw [rejectsPath_eq, hc] at h
    cases h

/-- Claim C6 counterexample: the claim says `ensureValidPath` raises "if
and only if" the resolved path lies outside the workspace root, but the
path `..secret` resolves to `ws/..secret` — inside the root `ws` — and is
nevertheless rejected, because the code tests the string prefix `..` of
the relative path rather than a parent-directory traversal segment. -/
theorem claim_C6_counterexample :
    rejectsPath ["ws"] ["ws"] ["..secret"] = true ∧
    ["ws"] <+: resolvePath ["ws"] ["..secret"] ∧
    resolvePath ["ws"] ["..secret"] = ["ws", "..secret"] :=
  ⟨by decide, ⟨["..secret"], by decide⟩, by decide⟩

/-- Claim C6 (amended): `ensureValidPath` raises if and only if the
relative path from the workspace root to the resolved target starts with
the two characters `..` — that is, iff the target lies outside the root,
or lies inside it but its first segment below the root itself begins with
the characters `..`.  `../outside.txt` is rejected, `sub/file.txt`
relative to the workspace root is accepted, and for ADD_FILE and
REMOVE_FILE a rejection precedes any file-system mutation (the file
system is unchanged and, for ADD_FILE, no detached write is even
started). -/
theorem claim_C6_amended (dirname cwd p : List Seg) :
    (rejectsPath dirname cwd p = true ↔
      (¬ dirname <+: resolvePath cwd p ∨
        ∃ a r, resolvePath cwd p = dirname ++ a :: r ∧
          List.isPrefixOf ['.', '.'] a.data = true)) ∧
    rejectsPath ["ws"] ["ws"] ["..", "outside.txt"] = true ∧
    rejectsPath ["ws"] ["ws"] ["sub", "file.txt"] = false ∧
    (∀ (st : SessionSt) (w : World) (content : String),
      rejectsPath dirname cwd p = true →
        (InteractiveSession.onMessage dirname cwd st w (Msg.ADD_FILE p content)).world = w ∧
        (InteractiveSession.onMessage dirname cwd st w (Msg.ADD_FILE p content)).uncaught = [] ∧
        (InteractiveSession.onMessage dirname cwd st w (Msg.REMOVE_FILE p)).world = w) := by
  refine ⟨rejectsPath_iff dirname cwd p, by decide, by decide, ?_⟩
  intro st w content h
  have he := ensureValidPath_of_rejects dirname cwd p h
  refine ⟨?_, ?_, ?_⟩
  · simp [InteractiveSession.onMessage, he]
  · simp [InteractiveSession.onMessage, he]
  · simp [InteractiveSession.onMessage, he]
    rfl

/-- Witness for claim C6 (amended) at a concrete input: `../x` is
rejected, and the rejected ADD_FILE leaves the world untouched. -/
theorem claim_C6_amended_witness :
    rejectsPath ["ws"] ["ws"] ["..", "outside.txt"] = true ∧
    (InteractiveSession.onMessage ["ws"] ["ws"] s0 w0
      (Msg.ADD_FILE ["..", "x"] "c")).world = w0 :=
  ⟨(claim_C6_amended ["ws"] ["ws"] ["..", "x"]).2.1,
   ((claim_C6_amended ["ws"] ["ws"] ["..", "x"]).2.2.2 s0 w0 "c" (by decide)).1⟩

end DeepForge
